import Mathlib

/-! Verification of the instrument position save/restore layer of the
`epicsapps` repository (`epicsapps/instruments/instrument.py` and
`epicsapps/instruments/utils.py`).

Python strings are modelled as lists of characters, database tables as
lists of row structures, and the stateful methods of `InstrumentDB` as
explicit state-passing functions returning the new database state
together with an `Except` describing the normal result or the Python
exception that propagates.

The generic CRUD layer (`SimpleDB.get_rows`, `add_row`, `update`,
`delete_rows`, `insert`) is not among the given sources; it is modelled
from the spec of the Schema Access Layer: `where` clauses filter rows on
field equality (a `None` value matching SQL NULL), `order_by` sorts
ascending, `limit_one` fails with a multiple-results error when more
than one row matches and yields `none` on zero matches when
`none_if_empty` is set, `delete_rows` removes every matching row, and
`add_row` inserts a row with a fresh id. -/

abbrev PvName := List Char

abbrev Value := Int

/-- `utils.normalize_pvname` (utils.py lines 21-25): if the name carries
no `.` it appends the default field suffix `.VAL`. -/
def normalize_pvname (pvname : PvName) : PvName :=
  if '.' ∈ pvname then pvname else pvname ++ ['.', 'V', 'A', 'L']

/-- Characters stripped by Python `str.strip()` with no argument. -/
def isPySpace (c : Char) : Bool :=
  c == ' ' || c == '\t' || c == '\n' || c == '\r' || c == '\x0b' || c == '\x0c'

/-- Python `posname.strip()`: drop leading and trailing whitespace. -/
def pstrip (s : PvName) : PvName :=
  ((s.dropWhile isPySpace).reverse.dropWhile isPySpace).reverse

/-- Python string comparison `<`: lexicographic on code points. -/
def pyStrLt : List Char → List Char → Bool
  | [], [] => false
  | [], _ :: _ => true
  | _ :: _, [] => false
  | c :: cs, d :: ds =>
    if c.toNat < d.toNat then true
    else if d.toNat < c.toNat then false
    else pyStrLt cs ds

def ver12 : List Char := ['1', '.', '2']

def ver13 : List Char := ['1', '.', '3']

/-- State relevant to `InstrumentDB.check_version`: the stored `version`
info string and the cumulative log of migration statements executed on
the session (statements are opaque ids). -/
structure VState where
  version : List Char
  executed : List Nat

/-- `InstrumentDB.check_version` (instrument.py lines 99-111).  The
stored version string is read once; each block compares it against a
target version, executes that target's migration statements and records
the new version.  The migration statements themselves live in the
`upgrades` module (not among the sources), so they are passed here as
opaque lists.  Returns the new state and the statements executed by
this call. -/
def check_version (sql12 sql13 : List Nat) (s : VState) : VState × List Nat :=
  let v := s.version
  let s1 := if pyStrLt v ver12 then { version := ver12, executed := s.executed ++ sql12 } else s
  let r1 := if pyStrLt v ver12 then sql12 else []
  let s2 := if pyStrLt v ver13 then { version := ver13, executed := s1.executed ++ sql13 } else s1
  let r2 := if pyStrLt v ver13 then sql13 else []
  (s2, r1 ++ r2)

structure InstRow where
  id : Nat
  name : PvName

structure PVRow where
  id : Nat
  name : PvName

structure InstPVRow where
  id : Nat
  instrument_id : Nat
  pv_id : Nat
  display_order : Nat

structure PosRow where
  id : Nat
  name : PvName
  instrument_id : Nat

structure PosPVRow where
  position_id : Option Nat
  pv_id : Nat
  value : Value
  notes : PvName × PvName

/-- The five tables touched by the verified operations. -/
structure DB where
  instruments : List InstRow
  pvs : List PVRow
  instrument_pvs : List InstPVRow
  positions : List PosRow
  position_pvs : List PosPVRow

/-- Python exceptions raised by the modelled code paths. -/
inductive DBErr where
  | multipleResults
  | invalidInstrument
  | positionNotFound (pos inst : PvName)
  | missingPVs (missing : List PvName)
  | keyErrorName (k : PvName)
  | keyErrorId (k : Nat)
  | nameError
  | attrError

/-- Python `dict` assignment `d[k] = v`: overwrite in place when the key
exists, otherwise append (insertion order preserved). -/
def dictInsert {α β : Type} [BEq α] : List (α × β) → α → β → List (α × β)
  | [], k, v => [(k, v)]
  | (k0, v0) :: rest, k, v =>
    if k0 == k then (k0, v) :: rest else (k0, v0) :: dictInsert rest k v

/-- Build a Python `dict` from a sequence of key/value pairs. -/
def dictOf {α β : Type} [BEq α] (l : List (α × β)) : List (α × β) :=
  l.foldl (fun d p => dictInsert d p.1 p.2) []

/-- `None_or_one` (instrument.py lines 45-54) and the `limit_one` +
`none_if_empty` contract of `get_rows`. -/
def noneOrOne {ρ : Type} : List ρ → Except DBErr (Option ρ)
  | [] => .ok none
  | [r] => .ok (some r)
  | _ :: _ :: _ => .error .multipleResults

/-- `InstrumentDB.get_instrument` (lines 144-148). -/
def get_instrument (db : DB) (name : PvName) : Except DBErr (Option InstRow) :=
  noneOrOne (db.instruments.filter (fun r => r.name == name))

/-- `InstrumentDB.get_position` (lines 248-255); `.attrError` models the
AttributeError from `self.get_instrument(instrument).id` when the named
instrument does not exist. -/
def get_position (db : DB) (name : PvName) (instrument : Option PvName) :
    Except DBErr (Option PosRow) :=
  match instrument with
  | none => noneOrOne (db.positions.filter (fun r => r.name == name))
  | some iname =>
    match get_instrument db iname with
    | .error e => .error e
    | .ok none => .error .attrError
    | .ok (some inst) =>
      noneOrOne (db.positions.filter (fun r => r.name == name && r.instrument_id == inst.id))

/-- `InstrumentDB.get_allpvs` (lines 218-219): the dict `{row.id: row.name}`. -/
def get_allpvs (db : DB) : List (Nat × PvName) :=
  dictOf (db.pvs.map (fun r => (r.id, r.name)))

/-- Ordering used by `order_by='display_order'`. -/
def byOrder (a b : InstPVRow) : Prop :=
  a.display_order ≤ b.display_order

instance : DecidableRel byOrder :=
  fun a b => Nat.decLe a.display_order b.display_order

instance : IsTotal InstPVRow byOrder :=
  ⟨fun a b => Nat.le_total a.display_order b.display_order⟩

instance : IsTrans InstPVRow byOrder :=
  ⟨fun _ _ _ hab hbc => Nat.le_trans hab hbc⟩

/-- `get_rows('instrument_pv', where instrument_id, order_by='display_order')`. -/
def instMembers (db : DB) (instid : Nat) : List InstPVRow :=
  List.insertionSort byOrder (db.instrument_pvs.filter (fun r => r.instrument_id == instid))

/-- The loop of `InstrumentDB.get_instrument_pvs` (lines 151-160):
`instpvs[allpvs[row.pv_id]] = row.pv_id`, raising a KeyError when a
membership row references a pv id absent from the pv table. -/
def buildInstPVs (allpvs : List (Nat × PvName)) :
    List InstPVRow → List (PvName × Nat) → Except DBErr (List (PvName × Nat))
  | [], acc => .ok acc
  | r :: rest, acc =>
    match List.lookup r.pv_id allpvs with
    | some nm => buildInstPVs allpvs rest (dictInsert acc nm r.pv_id)
    | none => .error (.keyErrorId r.pv_id)

/-- `InstrumentDB.get_instrument_pvs` (lines 151-160). -/
def get_instrument_pvs (db : DB) (instname : PvName) : Except DBErr (List (PvName × Nat)) :=
  match get_instrument db instname with
  | .error e => .error e
  | .ok none => .error .attrError
  | .ok (some inst) => buildInstPVs (get_allpvs db) (instMembers db inst.id) []

/-- The dict `pvvals` of `get_ordered_position` (lines 378-380). -/
def posValsDict (db : DB) (posid : Nat) : List (Nat × Value) :=
  dictOf ((db.position_pvs.filter (fun r => r.position_id == some posid)).map
    (fun r => (r.pv_id, r.value)))

/-- The loop of `get_ordered_position` building `ordered_pvs`
(lines 383-387): `ordered_pvs[allpvs[row.pv_id]] = pvvals.get(row.pv_id, None)`. -/
def buildOrdered (allpvs : List (Nat × PvName)) (pvvals : List (Nat × Value)) :
    List InstPVRow → List (PvName × Option Value) → Except DBErr (List (PvName × Option Value))
  | [], acc => .ok acc
  | r :: rest, acc =>
    match List.lookup r.pv_id allpvs with
    | some nm => buildOrdered allpvs pvvals rest (dictInsert acc nm (List.lookup r.pv_id pvvals))
    | none => .error (.keyErrorId r.pv_id)

/-- `InstrumentDB.get_ordered_position` (lines 359-388).  The
`exclude_pvs` argument is accepted but never used by the source. -/
def get_ordered_position (db : DB) (posname instname : PvName)
    (_excl : Option (List PvName)) : Except DBErr (List (PvName × Option Value)) :=
  match get_instrument db instname with
  | .error e => .error e
  | .ok none => .error .invalidInstrument
  | .ok (some inst) =>
    let pname := pstrip posname
    match get_position db pname (some instname) with
    | .error e => .error e
    | .ok none => .error (.positionNotFound pname instname)
    | .ok (some pos) =>
      buildOrdered (get_allpvs db) (posValsDict db pos.id) (instMembers db inst.id) []

/-- Fresh id for `add_row`, modelled from the spec of the Schema Access
Layer: one more than the largest existing id. -/
def nextId (ids : List Nat) : Nat :=
  ids.foldl (fun a b => max a b) 0 + 1

/-- The literal dict key `'name'` appearing in `save_position` line 355
(`value=values['name']`). -/
def nameKey : PvName := ['n', 'a', 'm', 'e']

/-- The insert loop of `save_position` (lines 353-356).  The source
reads `values['name']` — the literal key `'name'` — instead of
`values[name]`, so each iteration stores the value bound to the key
`'name'` and raises a KeyError when that key is absent. -/
def insertPosPVs (iname pname : PvName) (posid : Nat) (values : List (PvName × Value)) :
    List (PvName × Nat) → DB → DB × Except DBErr Unit
  | [], db => (db, .ok ())
  | (_, pvid) :: rest, db =>
    match List.lookup nameKey values with
    | none => (db, .error (.keyErrorName nameKey))
    | some v =>
      insertPosPVs iname pname posid values rest
        { db with position_pvs := db.position_pvs ++
            [{ position_id := some posid, pv_id := pvid, value := v,
               notes := (iname, pname) }] }

/-- `InstrumentDB.save_position` (lines 322-357).  When the position
already exists the source only touches its `modify_time` and `notes`
(fields not tracked here), so the update branch leaves the row as is. -/
def save_position (db : DB) (posname instname : PvName)
    (values : List (PvName × Value)) : DB × Except DBErr Unit :=
  match get_instrument db instname with
  | .error e => (db, .error e)
  | .ok none => (db, .error .invalidInstrument)
  | .ok (some inst) =>
    let pname := pstrip posname
    match get_position db pname (some instname) with
    | .error e => (db, .error e)
    | .ok posOpt =>
      let pr : PosRow × DB :=
        match posOpt with
        | none =>
          let pid := nextId (db.positions.map (fun r => r.id))
          let row : PosRow := { id := pid, name := pname, instrument_id := inst.id }
          (row, { db with positions := db.positions ++ [row] })
        | some p => (p, db)
      match get_instrument_pvs pr.2 instname with
      | .error e => (pr.2, .error e)
      | .ok instpvs =>
        let missing := (instpvs.map Prod.fst).filter (fun n => (List.lookup n values).isNone)
        if missing.isEmpty then insertPosPVs inst.name pname pr.1.id values instpvs pr.2
        else (pr.2, .error (.missingPVs missing))

/-- `InstrumentDB.remove_position` (lines 295-308): delete the value
rows of the named position, then every `position_pv` row whose
`position_id` is NULL, then the position row. -/
def remove_position (db : DB) (posname instname : PvName) : DB × Except DBErr Unit :=
  match get_instrument db instname with
  | .error e => (db, .error e)
  | .ok none => (db, .error .invalidInstrument)
  | .ok (some _) =>
    let pname := pstrip posname
    match get_position db pname (some instname) with
    | .error e => (db, .error e)
    | .ok none => (db, .error (.positionNotFound pname instname))
    | .ok (some pos) =>
      let db1 := { db with position_pvs :=
        db.position_pvs.filter (fun (r : PosPVRow) => !(r.position_id == some pos.id)) }
      let db2 := { db1 with position_pvs :=
        db1.position_pvs.filter (fun (r : PosPVRow) => !(r.position_id == none)) }
      let db3 := { db2 with positions :=
        db2.positions.filter (fun (r : PosRow) => !(r.id == pos.id)) }
      (db3, .ok ())

/-- `InstrumentDB.get_positions` (lines 242-246). -/
def get_positions (db : DB) (instname : PvName) : Except DBErr (List PosRow) :=
  match get_instrument db instname with
  | .error e => .error e
  | .ok none => .error .attrError
  | .ok (some inst) => .ok (db.positions.filter (fun r => r.instrument_id == inst.id))

/-- The loop `for pos in self.get_positions(instname): self.remove_position(...)`
of `remove_instrument` (lines 315-316). -/
def removePositionsLoop (instname : PvName) :
    List PosRow → DB → DB × Except DBErr Unit
  | [], db => (db, .ok ())
  | p :: rest, db =>
    match remove_position db p.name instname with
    | (db1, .ok _) => removePositionsLoop instname rest db1
    | (db1, .error e) => (db1, .error e)

/-- `InstrumentDB.remove_instrument` (lines 310-320).  Note the last
statement of the source deletes from `instrument_pv` with
`where={'id': inst.id}` — the membership row whose primary key equals
the instrument id — and no delete on the `instrument` table appears. -/
def remove_instrument (db : DB) (instname : PvName) : DB × Except DBErr Unit :=
  match get_instrument db instname with
  | .error e => (db, .error e)
  | .ok none => (db, .error .invalidInstrument)
  | .ok (some inst) =>
    match get_positions db instname with
    | .error e => (db, .error e)
    | .ok poss =>
      match removePositionsLoop instname poss db with
      | (db1, .error e) => (db1, .error e)
      | (db1, .ok _) =>
        let db2 := { db1 with positions :=
          db1.positions.filter (fun (r : PosRow) => !(r.instrument_id == inst.id)) }
        let db3 := { db2 with instrument_pvs :=
          db2.instrument_pvs.filter (fun (r : InstPVRow) => !(r.instrument_id == inst.id)) }
        let db4 := { db3 with instrument_pvs :=
          db3.instrument_pvs.filter (fun (r : InstPVRow) => !(r.id == inst.id)) }
        (db4, .ok ())

/-- `InstrumentDB.get_pv` (lines 221-233): look up the normalized name;
if absent and the given name differs from its normalization, look up
the raw name and, when found, rewrite that row's name to the normalized
form.  Returns the row found (with the name it was fetched under) and
the possibly updated database. -/
def get_pv (db : DB) (name : PvName) : Except DBErr (Option PVRow) × DB :=
  let norm_name := normalize_pvname name
  match noneOrOne (db.pvs.filter (fun r => r.name == norm_name)) with
  | .error e => (.error e, db)
  | .ok (some row) => (.ok (some row), db)
  | .ok none =>
    if norm_name == name then (.ok none, db)
    else
      match noneOrOne (db.pvs.filter (fun r => r.name == name)) with
      | .error e => (.error e, db)
      | .ok none => (.ok none, db)
      | .ok (some row) =>
        let newpvs := db.pvs.map
          (fun p => if p.name == name then { p with name := norm_name } else p)
        (.ok (some row), { db with pvs := newpvs })

/-- `InstrumentDB.add_pv` (lines 277-293): normalizes the name, returns
(None) when the pv already exists, and otherwise executes
`kws['notes'] = notes` — but `notes` is unbound in `add_pv`, so a
NameError is raised before any row is inserted. -/
def add_pv (db : DB) (name : PvName) : Except DBErr (Option PVRow) × DB :=
  let nname := normalize_pvname name
  match get_pv db nname with
  | (.error e, db1) => (.error e, db1)
  | (.ok (some _), db1) => (.ok none, db1)
  | (.ok none, db1) => (.error .nameError, db1)

/-- The local names bound in the body of `restore_position`
(lines 391-412): parameters, `t0`, `ordered_pvs`, `work_pvs` and the
loop variables. -/
def restore_local_names : List PvName :=
  [['p','o','s','n','a','m','e'], ['i','n','s','t','n','a','m','e'],
   ['w','a','i','t'], ['t','i','m','e','o','u','t'],
   ['e','x','c','l','u','d','e','_','p','v','s'], ['t','0'],
   ['o','r','d','e','r','e','d','_','p','v','s'],
   ['w','o','r','k','_','p','v','s'], ['p','v','n','a','m','e'],
   ['v','a','l','u','e'], ['t','h','i','s','p','v']]

/-- The name `val` referenced by `thispv.put(val, wait=False,
use_complete=True)` on line 408. -/
def val_name : PvName := ['v', 'a', 'l']

/-- Whether evaluating `val` inside the try block succeeds.  `val` is
not among the local names, so the put call raises NameError before the
write is issued; the bare `except: pass` swallows it. -/
def val_is_bound : Bool :=
  restore_local_names.contains val_name

/-- A live channel handle as seen through the external channel-access
contract: initial connection state, whether a one-second
`wait_for_connection` succeeds, and the `put_complete` flag the handle
reports at each poll iteration. -/
structure Chan where
  connected0 : Bool
  connectsOnWait : Bool
  put_complete : Nat → Bool

/-- The completion poll loop of `restore_position` (lines 415-421),
with time discretized into poll iterations: at iteration `t` with
`fuel` iterations left before the deadline, exit with `complete = False`
when every tracked handle reports completion, and with
`complete = True` when the deadline passes first — exactly as the
source assigns the flag. -/
def pollLoop (ps : List Chan) : Nat → Nat → Bool
  | t, 0 => if ps.all (fun p => p.put_complete t) then false else true
  | t, f + 1 => if ps.all (fun p => p.put_complete t) then false else pollLoop ps (t + 1) f

/-- `InstrumentDB.restore_position` (lines 391-422).  `reg` models the
`self.pvs` registry of live handles.  For each channel in order the
source waits up to a second for a connection when needed and silently
skips unconnected channels; for connected ones the put call raises
NameError on the unbound `val` (swallowed by the bare except), and when
`wait` is requested the handle is appended to `work_pvs` regardless.
Returns the `complete` flag and the list of channel names whose put
call was actually issued. -/
def restore_position (db : DB) (reg : PvName → Chan) (posname instname : PvName)
    (wait : Bool) (deadline : Nat) (excl : Option (List PvName)) :
    Except DBErr (Bool × List PvName) :=
  match get_ordered_position db posname instname excl with
  | .error e => .error e
  | .ok ordered =>
    let connected := ordered.filter
      (fun p => (reg p.1).connected0 || (reg p.1).connectsOnWait)
    let putsIssued := if val_is_bound then connected.map Prod.fst else []
    let work := if wait then connected.map (fun p => reg p.1) else []
    if wait then .ok (pollLoop work 0 deadline, putsIssued)
    else .ok (true, putsIssued)

/-! Concrete database fixtures used by witnesses and counterexamples. -/

def instNameA : PvName := ['i']

def posNameA : PvName := ['q']

def pvNameA : PvName := ['p', '.', 'V', 'A', 'L']

def pvNameB : PvName := ['r', '.', 'V', 'A', 'L']

/-- One instrument with one member channel and one saved position. -/
def dbA : DB :=
  { instruments := [{ id := 1, name := instNameA }],
    pvs := [{ id := 1, name := pvNameA }],
    instrument_pvs := [{ id := 1, instrument_id := 1, pv_id := 1, display_order := 0 }],
    positions := [{ id := 1, name := posNameA, instrument_id := 1 }],
    position_pvs := [{ position_id := some 1, pv_id := 1, value := 5,
                       notes := (instNameA, posNameA) }] }

/-- One instrument with one member channel and no saved position. -/
def dbB : DB :=
  { instruments := [{ id := 1, name := instNameA }],
    pvs := [{ id := 1, name := pvNameA }],
    instrument_pvs := [{ id := 1, instrument_id := 1, pv_id := 1, display_order := 0 }],
    positions := [],
    position_pvs := [] }

/-- Two instruments; the membership row with primary key 1 belongs to
instrument 2, and an orphan value row has a NULL position id. -/
def dbC : DB :=
  { instruments := [{ id := 1, name := ['A'] }, { id := 2, name := ['B'] }],
    pvs := [{ id := 7, name := ['x', '.', 'V', 'A', 'L'] },
            { id := 8, name := ['y', '.', 'V', 'A', 'L'] }],
    instrument_pvs := [{ id := 1, instrument_id := 2, pv_id := 7, display_order := 0 },
                       { id := 2, instrument_id := 1, pv_id := 8, display_order := 0 }],
    positions := [{ id := 1, name := ['p'], instrument_id := 1 }],
    position_pvs := [{ position_id := some 1, pv_id := 8, value := 3, notes := (['A'], ['p']) },
                     { position_id := none, pv_id := 7, value := 9, notes := (['A'], ['p']) }] }

/-- One instrument with two member channels and a saved position. -/
def dbD : DB :=
  { instruments := [{ id := 1, name := instNameA }],
    pvs := [{ id := 1, name := pvNameA }, { id := 2, name := pvNameB }],
    instrument_pvs := [{ id := 1, instrument_id := 1, pv_id := 1, display_order := 0 },
                       { id := 2, instrument_id := 1, pv_id := 2, display_order := 1 }],
    positions := [{ id := 1, name := posNameA, instrument_id := 1 }],
    position_pvs := [{ position_id := some 1, pv_id := 1, value := 5,
                       notes := (instNameA, posNameA) },
                     { position_id := some 1, pv_id := 2, value := 6,
                       notes := (instNameA, posNameA) }] }

/-- A pv table holding a row stored under an unnormalized name. -/
def dbE : DB :=
  { instruments := [], pvs := [{ id := 1, name := ['f', 'o', 'o'] }],
    instrument_pvs := [], positions := [], position_pvs := [] }

def dbEmpty : DB :=
  { instruments := [], pvs := [], instrument_pvs := [], positions := [], position_pvs := [] }

/-- Registry in which every channel is connected and reports its put
complete at every poll. -/
def regDone : PvName → Chan :=
  fun _ => { connected0 := true, connectsOnWait := false, put_complete := fun _ => true }

/-- Registry in which every channel is connected but no completion flag
is ever observed set. -/
def regNever : PvName → Chan :=
  fun _ => { connected0 := true, connectsOnWait := false, put_complete := fun _ => false }

/-- Registry in which the first channel never connects and the second is
connected but never reports completion. -/
def regMixed : PvName → Chan :=
  fun n =>
    if n == pvNameA then
      { connected0 := false, connectsOnWait := false, put_complete := fun _ => false }
    else
      { connected0 := true, connectsOnWait := false, put_complete := fun _ => false }

/-! Helper lemmas. -/

theorem get_instrument_eq_some (db : DB) (instname : PvName) (inst : InstRow)
    (h : db.instruments.filter (fun r => r.name == instname) = [inst]) :
    get_instrument db instname = .ok (some inst) := by
  unfold get_instrument
  rw [h]
  rfl

theorem get_instrument_eq_none (db : DB) (instname : PvName)
    (h : db.instruments.filter (fun r => r.name == instname) = []) :
    get_instrument db instname = .ok none := by
  unfold get_instrument
  rw [h]
  rfl

theorem get_position_eq_some (db : DB) (pname instname : PvName) (inst : InstRow) (pos : PosRow)
    (hI : db.instruments.filter (fun r => r.name == instname) = [inst])
    (hP : db.positions.filter (fun r => r.name == pname && r.instrument_id == inst.id) = [pos]) :
    get_position db pname (some instname) = .ok (some pos) := by
  unfold get_position
  dsimp only
  rw [get_instrument_eq_some db instname inst hI]
  dsimp only
  rw [hP]
  rfl

theorem get_position_eq_none (db : DB) (pname instname : PvName) (inst : InstRow)
    (hI : db.instruments.filter (fun r => r.name == instname) = [inst])
    (hP : db.positions.filter (fun r => r.name == pname && r.instrument_id == inst.id) = []) :
    get_position db pname (some instname) = .ok none := by
  unfold get_position
  dsimp only
  rw [get_instrument_eq_some db instname inst hI]
  dsimp only
  rw [hP]
  rfl

theorem dictInsert_eq_append {α β : Type} [BEq α] [LawfulBEq α]
    (d : List (α × β)) (k : α) (v : β) (h : k ∉ d.map Prod.fst) :
    dictInsert d k v = d ++ [(k, v)] := by
  induction d with
  | nil => rfl
  | cons p rest ih =>
    obtain ⟨k0, v0⟩ := p
    simp only [List.map_cons, List.mem_cons] at h
    push_neg at h
    have hne : (k0 == k) = false := beq_eq_false_iff_ne.mpr (fun he => h.1 he.symm)
    simp only [dictInsert, hne, List.cons_append, Bool.false_eq_true, if_false]
    rw [ih h.2]

theorem lookup_dictInsert_ne {α β : Type} [BEq α] [LawfulBEq α]
    (d : List (α × β)) (k0 : α) (v : β) (k : α) (h : ¬ k = k0) :
    List.lookup k (dictInsert d k0 v) = List.lookup k d := by
  induction d with
  | nil => simp [dictInsert, List.lookup, beq_eq_false_iff_ne.mpr h]
  | cons p rest ih =>
    obtain ⟨a, b⟩ := p
    by_cases ha : (a == k0) = true
    · simp only [dictInsert, ha, if_true]
      simp [List.lookup, beq_eq_false_iff_ne.mpr h, beq_iff_eq.mp ha]
    · simp only [dictInsert, ha, Bool.false_eq_true, if_false]
      by_cases hk : (k == a) = true
      · simp [List.lookup, hk]
      · simp only [List.lookup, hk]
        exact ih

theorem lookup_foldl_dictInsert_none {α β : Type} [BEq α] [LawfulBEq α] (k : α) :
    ∀ (l : List (α × β)) (acc : List (α × β)),
      List.lookup k acc = none → k ∉ l.map Prod.fst →
      List.lookup k (l.foldl (fun d p => dictInsert d p.1 p.2) acc) = none
  | [], acc, hacc, _ => by simpa using hacc
  | p :: rest, acc, hacc, hl => by
    simp only [List.map_cons, List.mem_cons] at hl
    push_neg at hl
    simp only [List.foldl_cons]
    exact lookup_foldl_dictInsert_none k rest (dictInsert acc p.1 p.2)
      (by rw [lookup_dictInsert_ne acc p.1 p.2 k hl.1]; exact hacc) hl.2

theorem lookup_dictOf_none {α β : Type} [BEq α] [LawfulBEq α] (k : α) (l : List (α × β))
    (h : k ∉ l.map Prod.fst) : List.lookup k (dictOf l) = none :=
  lookup_foldl_dictInsert_none k l [] rfl h

theorem buildOrdered_eq (allpvs : List (Nat × PvName)) (pvvals : List (Nat × Value))
    (nm : Nat → PvName) :
    ∀ (l : List InstPVRow) (acc : List (PvName × Option Value)),
      (∀ r ∈ l, List.lookup r.pv_id allpvs = some (nm r.pv_id)) →
      (acc.map Prod.fst ++ l.map (fun r => nm r.pv_id)).Nodup →
      buildOrdered allpvs pvvals l acc =
        .ok (acc ++ l.map (fun r => (nm r.pv_id, List.lookup r.pv_id pvvals)))
  | [], acc, _, _ => by simp [buildOrdered]
  | r :: rest, acc, hlook, hnd => by
    have hr := hlook r (List.mem_cons_self r rest)
    have hnd' : (acc.map Prod.fst ++ nm r.pv_id :: rest.map (fun q => nm q.pv_id)).Nodup := by
      simpa using hnd
    have hnotmem : nm r.pv_id ∉ acc.map Prod.fst := by
      intro hmem
      exact (List.nodup_append.mp hnd').2.2 hmem (List.mem_cons_self _ _)
    simp only [buildOrdered, hr]
    rw [dictInsert_eq_append acc (nm r.pv_id) _ hnotmem]
    rw [buildOrdered_eq allpvs pvvals nm rest
      (acc ++ [(nm r.pv_id, List.lookup r.pv_id pvvals)])
      (fun q hq => hlook q (List.mem_cons_of_mem r hq))
      (by simpa [List.append_assoc] using hnd')]
    simp

theorem get_instrument_pvs_set_positions (db : DB) (ps : List PosRow) (n : PvName) :
    get_instrument_pvs { db with positions := ps } n = get_instrument_pvs db n := rfl

theorem pyStrLt_w_nil (w : List Char) : pyStrLt w [] = false := by
  cases w <;> rfl

theorem pyStrLt_12_13 : ∀ v : List Char, pyStrLt v ver12 = true → pyStrLt v ver13 = true := by
  intro v h
  match v with
  | [] => rfl
  | c :: t =>
    simp only [ver12, pyStrLt] at h
    simp only [ver13, pyStrLt]
    by_cases h1 : c.toNat < Char.toNat '1'
    · rw [if_pos h1]
    · rw [if_neg h1] at h ⊢
      by_cases h2 : Char.toNat '1' < c.toNat
      · rw [if_pos h2] at h
        exact absurd h (by decide)
      · rw [if_neg h2] at h ⊢
        match t with
        | [] => rfl
        | d :: u =>
          simp only [pyStrLt] at h ⊢
          by_cases h3 : d.toNat < Char.toNat '.'
          · rw [if_pos h3]
          · rw [if_neg h3] at h ⊢
            by_cases h4 : Char.toNat '.' < d.toNat
            · rw [if_pos h4] at h
              exact absurd h (by decide)
            · rw [if_neg h4] at h ⊢
              match u with
              | [] => rfl
              | e :: w =>
                simp only [pyStrLt] at h ⊢
                by_cases h5 : e.toNat < Char.toNat '2'
                · have hx : Char.toNat '2' = 50 := rfl
                  have hy : Char.toNat '3' = 51 := rfl
                  have h6 : e.toNat < Char.toNat '3' := by omega
                  rw [if_pos h6]
                · rw [if_neg h5] at h
                  by_cases h6 : Char.toNat '2' < e.toNat
                  · rw [if_pos h6] at h
                    exact absurd h (by decide)
                  · rw [if_neg h6, pyStrLt_w_nil w] at h
                    exact absurd h (by decide)

/-- C7: `check_version` applied twice in a row is a no-op the second
time: after one call has run the ordered migrations and recorded the new
version, a second call executes no migration statements and leaves the
stored version and all data (the version string and the log of executed
statements) unchanged. -/
theorem check_version_idempotent (sql12 sql13 : List Nat) (s : VState) :
    check_version sql12 sql13 (check_version sql12 sql13 s).1 =
      ((check_version sql12 sql13 s).1, []) := by
  have e1 : pyStrLt ver13 ver12 = false := by decide
  have e2 : pyStrLt ver13 ver13 = false := by decide
  by_cases h12 : pyStrLt s.version ver12 = true
  · have h13 := pyStrLt_12_13 s.version h12
    simp [check_version, h12, h13, e1, e2]
  · by_cases h13 : pyStrLt s.version ver13 = true
    · simp [check_version, h12, h13, e1, e2]
    · simp [check_version, h12, h13]

/-- C6: `normalize_pvname` appends the default field suffix `.VAL` when
the name carries no field suffix, leaves already-qualified names
unchanged, maps `foo` to `foo.VAL` and `foo.RBV` to itself, and is
idempotent. -/
theorem normalize_pvname_spec :
    (∀ n : PvName,
        ('.' ∈ n → normalize_pvname n = n)
        ∧ ('.' ∉ n → normalize_pvname n = n ++ ['.', 'V', 'A', 'L'])
        ∧ normalize_pvname (normalize_pvname n) = normalize_pvname n)
    ∧ normalize_pvname ['f', 'o', 'o'] = ['f', 'o', 'o', '.', 'V', 'A', 'L']
    ∧ normalize_pvname ['f', 'o', 'o', '.', 'R', 'B', 'V'] =
        ['f', 'o', 'o', '.', 'R', 'B', 'V'] := by
  refine ⟨fun n => ⟨?_, ?_, ?_⟩, by decide, by decide⟩
  · intro h
    simp [normalize_pvname, h]
  · intro h
    simp [normalize_pvname, h]
  · by_cases h : '.' ∈ n
    · simp [normalize_pvname, h]
    · have h2 : '.' ∈ n ++ ['.', 'V', 'A', 'L'] := by simp
      simp [normalize_pvname, h, h2]

/-- Witness for C6 at the concrete name `foo`. -/
theorem normalize_pvname_spec_witness :
    normalize_pvname ['f', 'o', 'o'] = ['f', 'o', 'o'] ++ ['.', 'V', 'A', 'L'] :=
  (normalize_pvname_spec.1 ['f', 'o', 'o']).2.1 (by decide)

/-- C5: for every existing instrument and position, `get_ordered_position`
returns a mapping whose entries appear in exactly the instrument's
membership display order (any membership size, including zero), where a
member channel with no stored PositionValue row maps to `none`; it fails
with the unknown-instrument error when the instrument is absent and with
the unknown-position error when the position is absent. -/
theorem get_ordered_position_spec :
    (∀ (db : DB) (posname instname : PvName) (excl : Option (List PvName))
        (inst : InstRow) (pos : PosRow) (nm : Nat → PvName),
      db.instruments.filter (fun r => r.name == instname) = [inst] →
      db.positions.filter
          (fun r => r.name == pstrip posname && r.instrument_id == inst.id) = [pos] →
      ((instMembers db inst.id).all
          (fun r => List.lookup r.pv_id (get_allpvs db) == some (nm r.pv_id))) = true →
      ((instMembers db inst.id).map (fun r => nm r.pv_id)).Nodup →
      get_ordered_position db posname instname excl =
          .ok ((instMembers db inst.id).map
            (fun r => (nm r.pv_id, List.lookup r.pv_id (posValsDict db pos.id))))
        ∧ List.Sorted byOrder (instMembers db inst.id)
        ∧ (instMembers db inst.id).Perm
            (db.instrument_pvs.filter (fun r => r.instrument_id == inst.id))
        ∧ ∀ r ∈ instMembers db inst.id,
            (∀ q ∈ db.position_pvs, ¬(q.position_id = some pos.id ∧ q.pv_id = r.pv_id)) →
            List.lookup r.pv_id (posValsDict db pos.id) = none)
    ∧ (∀ (db : DB) (posname instname : PvName) (excl : Option (List PvName)),
        db.instruments.filter (fun r => r.name == instname) = [] →
        get_ordered_position db posname instname excl = .error .invalidInstrument)
    ∧ (∀ (db : DB) (posname instname : PvName) (excl : Option (List PvName)) (inst : InstRow),
        db.instruments.filter (fun r => r.name == instname) = [inst] →
        db.positions.filter
            (fun r => r.name == pstrip posname && r.instrument_id == inst.id) = [] →
        get_ordered_position db posname instname excl =
          .error (.positionNotFound (pstrip posname) instname)) := by
  refine ⟨?_, ?_, ?_⟩
  · intro db posname instname excl inst pos nm hI hP hAll hnd
    have hlook : ∀ r ∈ instMembers db inst.id,
        List.lookup r.pv_id (get_allpvs db) = some (nm r.pv_id) := by
      intro r hr
      exact beq_iff_eq.mp (List.all_eq_true.mp hAll r hr)
    refine ⟨?_, ?_, ?_, ?_⟩
    · unfold get_ordered_position
      rw [get_instrument_eq_some db instname inst hI]
      dsimp only
      rw [get_position_eq_some db (pstrip posname) instname inst pos hI hP]
      dsimp only
      rw [buildOrdered_eq (get_allpvs db) (posValsDict db pos.id) nm
        (instMembers db inst.id) [] hlook (by simpa using hnd)]
      simp
    · exact List.sorted_insertionSort byOrder _
    · exact List.perm_insertionSort byOrder _
    · intro r hr hno
      apply lookup_dictOf_none
      intro hmem
      simp only [List.map_map, List.mem_map, Function.comp, List.mem_filter] at hmem
      obtain ⟨q, ⟨hqmem, hqpos⟩, hqid⟩ := hmem
      exact hno q hqmem ⟨beq_iff_eq.mp hqpos, hqid⟩
  · intro db posname instname excl hI
    unfold get_ordered_position
    rw [get_instrument_eq_none db instname hI]
  · intro db posname instname excl inst hI hP
    unfold get_ordered_position
    rw [get_instrument_eq_some db instname inst hI]
    dsimp only
    rw [get_position_eq_none db (pstrip posname) instname inst hI hP]

/-- Witness for C5 on a concrete database with one member channel. -/
theorem get_ordered_position_spec_witness :
    get_ordered_position dbA posNameA instNameA none = .ok [(pvNameA, some 5)] := by
  have h := (get_ordered_position_spec.1 dbA posNameA instNameA none
    { id := 1, name := instNameA } { id := 1, name := posNameA, instrument_id := 1 }
    (fun _ => pvNameA) rfl rfl rfl (by decide)).1
  exact h

/-- C3: for every value mapping missing at least one of the instrument's
member channel names, `save_position` fails with the incomplete-position
error listing exactly the missing channel names, and no `position_pv`
row is written by the attempt. -/
theorem save_position_missing_pvs
    (db : DB) (posname instname : PvName) (values : List (PvName × Value))
    (inst : InstRow) (posOpt : Option PosRow) (instpvs : List (PvName × Nat))
    (hI : db.instruments.filter (fun r => r.name == instname) = [inst])
    (hP : get_position db (pstrip posname) (some instname) = .ok posOpt)
    (hM : get_instrument_pvs db instname = .ok instpvs)
    (hmiss : (instpvs.map Prod.fst).filter (fun n => (List.lookup n values).isNone) ≠ []) :
    (save_position db posname instname values).2 =
        .error (.missingPVs ((instpvs.map Prod.fst).filter
          (fun n => (List.lookup n values).isNone)))
      ∧ (save_position db posname instname values).1.position_pvs = db.position_pvs := by
  have hfalse : ((instpvs.map Prod.fst).filter
      (fun n => (List.lookup n values).isNone)).isEmpty = false :=
    List.isEmpty_eq_false.mpr hmiss
  unfold save_position
  rw [get_instrument_eq_some db instname inst hI]
  dsimp only
  rw [hP]
  dsimp only
  cases posOpt with
  | none =>
    rw [get_instrument_pvs_set_positions, hM]
    dsimp only
    rw [hfalse]
    exact ⟨rfl, rfl⟩
  | some p =>
    rw [hM]
    dsimp only
    rw [hfalse]
    exact ⟨rfl, rfl⟩

/-- Witness for C3: saving with an empty value mapping on a concrete
instrument with one member channel. -/
theorem save_position_missing_pvs_witness :
    (save_position dbB posNameA instNameA []).2 = .error (.missingPVs [pvNameA])
      ∧ (save_position dbB posNameA instNameA []).1.position_pvs = [] := by
  have h := save_position_missing_pvs dbB posNameA instNameA []
    { id := 1, name := instNameA } none [(pvNameA, 1)] rfl rfl rfl (by decide)
  exact h

/-- C10: for every existing instrument and position, `remove_position`
deletes the named position's value rows, every `position_pv` row whose
`position_id` is NULL (orphan rows belonging to no position), and the
position row, and leaves the other tables and all other positions'
value rows unchanged. -/
theorem remove_position_deletes_null_rows
    (db : DB) (posname instname : PvName) (inst : InstRow) (pos : PosRow)
    (hI : db.instruments.filter (fun r => r.name == instname) = [inst])
    (hP : db.positions.filter
        (fun r => r.name == pstrip posname && r.instrument_id == inst.id) = [pos]) :
    (remove_position db posname instname).2 = .ok ()
    ∧ (remove_position db posname instname).1.position_pvs =
        db.position_pvs.filter
          (fun r => !(r.position_id == none) && !(r.position_id == some pos.id))
    ∧ (remove_position db posname instname).1.positions =
        db.positions.filter (fun r => !(r.id == pos.id))
    ∧ (remove_position db posname instname).1.instruments = db.instruments
    ∧ (remove_position db posname instname).1.pvs = db.pvs
    ∧ (remove_position db posname instname).1.instrument_pvs = db.instrument_pvs
    ∧ ∀ r ∈ db.position_pvs, ∀ q : Nat, r.position_id = some q → q ≠ pos.id →
        r ∈ (remove_position db posname instname).1.position_pvs := by
  have hred : remove_position db posname instname =
      ({ db with
          position_pvs :=
            (db.position_pvs.filter
              (fun (r : PosPVRow) => !(r.position_id == some pos.id))).filter
              (fun (r : PosPVRow) => !(r.position_id == none)),
          positions := db.positions.filter (fun (r : PosRow) => !(r.id == pos.id)) },
        .ok ()) := by
    unfold remove_position
    rw [get_instrument_eq_some db instname inst hI]
    dsimp only
    rw [get_position_eq_some db (pstrip posname) instname inst pos hI hP]
  rw [hred]
  refine ⟨rfl, ?_, rfl, rfl, rfl, rfl, ?_⟩
  · rw [List.filter_filter]
  · intro r hr q hq hne
    rw [List.filter_filter]
    rw [List.mem_filter]
    refine ⟨hr, ?_⟩
    rw [hq]
    simp [hne]

/-- Witness for C10 on a concrete database holding an orphan NULL row, a
value row of the removed position, and nothing else. -/
theorem remove_position_deletes_null_rows_witness :
    (remove_position dbC ['p'] ['A']).2 = .ok ()
    ∧ (remove_position dbC ['p'] ['A']).1.position_pvs = [] := by
  have h := remove_position_deletes_null_rows dbC ['p'] ['A']
    { id := 1, name := ['A'] } { id := 1, name := ['p'], instrument_id := 1 } rfl rfl
  exact ⟨h.1, by rw [h.2.1]; rfl⟩

/-- C1: evaluation of `restore_position` at two concrete inputs showing
the completion flag is inverted.  With every tracked channel connected
and reporting completion at the very first poll and a generous deadline,
the call returns `false`; with a channel that never reports completion,
the call returns `true` once the deadline passes.  The put-issued log is
empty in both runs because the put call's argument `val` is unbound. -/
theorem restore_position_completion_flag_inverted :
    restore_position dbA regDone posNameA instNameA true 5 none = .ok (false, [])
    ∧ restore_position dbA regNever posNameA instNameA true 2 none = .ok (true, []) :=
  ⟨rfl, rfl⟩

/-- C2: evaluation of `save_position` showing the stored value is read
from the literal dict key `name`.  With a complete value mapping lacking
the key `name`, the save raises a KeyError and writes no value row; with
the key `name` bound to 7 while the member channel's supplied value is
5, the save succeeds and the round trip through `get_ordered_position`
returns 7 for that channel instead of the 5 that was supplied. -/
theorem save_position_literal_name_key :
    (save_position dbB posNameA instNameA [(pvNameA, 5)]).2 =
        .error (.keyErrorName nameKey)
    ∧ (save_position dbB posNameA instNameA [(pvNameA, 5)]).1.position_pvs = []
    ∧ (save_position dbB posNameA instNameA [(pvNameA, 5), (nameKey, 7)]).2 = .ok ()
    ∧ get_ordered_position
        (save_position dbB posNameA instNameA [(pvNameA, 5), (nameKey, 7)]).1
        posNameA instNameA none = .ok [(pvNameA, some 7)] :=
  ⟨rfl, rfl, rfl, rfl⟩

/-- C4: evaluation of `remove_instrument` on a database with two
instruments.  Removing instrument `A` (id 1) leaves the `instrument`
table untouched — row `A` is still present — while the final delete on
`instrument_pv` with `where id = 1` destroys instrument `B`'s membership
row whose primary key happens to be 1. -/
theorem remove_instrument_keeps_instrument_row :
    (remove_instrument dbC ['A']).2 = .ok ()
    ∧ (remove_instrument dbC ['A']).1.instruments =
        [{ id := 1, name := ['A'] }, { id := 2, name := ['B'] }]
    ∧ (remove_instrument dbC ['A']).1.instrument_pvs = [] :=
  ⟨rfl, rfl, rfl⟩

/-- C8: evaluation of `restore_position` on an instrument with two
member channels, the first of which never connects while the second is
connected but never reports completion.  The call returns normally (no
exception), the unconnected channel is skipped silently, but no write is
issued to any channel — `val` is not among the local names of
`restore_position`, so every put attempt dies in a swallowed NameError —
and at the deadline the call reports `true` (complete) instead of an
incomplete result. -/
theorem restore_position_best_effort_bug :
    restore_position dbD regMixed posNameA instNameA true 2 none = .ok (true, [])
    ∧ val_is_bound = false :=
  ⟨rfl, rfl⟩

/-- C9: evaluation of `add_pv` and `get_pv`.  On an empty database
`add_pv` raises NameError (the unbound `notes` on line 286) before
inserting any row, so no pv row is ever inserted by `add_pv`; `get_pv`,
by contrast, does rewrite a row stored under an unnormalized name to its
normalized form. -/
theorem add_pv_raises_name_error :
    add_pv dbEmpty ['f', 'o', 'o'] = (.error .nameError, dbEmpty)
    ∧ (get_pv dbE ['f', 'o', 'o']).2.pvs =
        [{ id := 1, name := ['f', 'o', 'o', '.', 'V', 'A', 'L'] }]
    ∧ (get_pv dbE ['f', 'o', 'o']).1 = .ok (some { id := 1, name := ['f', 'o', 'o'] }) :=
  ⟨rfl, rfl, rfl⟩
